import Mathlib

/-!
Verification of the client-side core of the mcp-factor repository: the data
model, the zustand state store (store file), the mock API client
(src/lib/api-client.ts) and the localStorage persistence helper
(src/lib/mockStorage.ts), shallowly embedded in Lean.

Modelling conventions:
* TypeScript strings are `String`, booleans are `Bool`, integers are `Nat`,
  real-valued fields (temperature, star ratings) are `ℚ`.
* Optional object fields (`field?: T`) are `Option T`; `Partial<T>` records
  are structures whose every field is an `Option`, defaulting to `none`
  (an absent key).  The TS spread `{...a, ...b}` is a field-wise
  `Option.getD`: a field present in `b` wins, otherwise `a`'s value stands.
* Opaque `Record<string, any>` blobs are modelled as finite string maps;
  no claim inspects their contents.
* Nondeterministic ambient values (`Date.now().toString()`,
  `new Date().toISOString()`) are passed in as explicit parameters.
* `localStorage` is an association list from string keys to stored values.
  `JSON.stringify`/`JSON.parse` round-trip for every value this code
  stores, so a stored value is kept as a `StoredValue` (either a
  serialized integration or a serialized id list) rather than as raw text.
  The TS code casts parsed values without validating them
  (`JSON.parse(data) as MCPIntegration`); reading a key therefore yields
  whatever `StoredValue` sits there, and list operations applied to a
  non-list value throw at the call site, which the enclosing try/catch of
  the caller swallows.  `getMCPList` returns `Except Unit (List String)`
  to record exactly that hazard.
-/

/-- Opaque JSON blob (`Record<string, any>` in the source), modelled as a
finite string map; no operation in the verified code inspects it. -/
abbrev ConfigBlob := List (String × String)

inductive AuthType where
  | none | apiKey | bearer | oauth2 | basic | custom
deriving DecidableEq

structure Authentication where
  type : AuthType
  config : Option ConfigBlob := Option.none
deriving DecidableEq

structure APIRoute where
  id : String
  method : String
  path : String
  description : String
deriving DecidableEq

inductive APIStatus where
  | connected | error | noKey
deriving DecidableEq

structure APIConfig where
  id : String
  name : String
  baseUrl : String
  authentication : Authentication
  routes : List APIRoute
  headers : Option (List (String × String)) := Option.none
  timeout : Option Nat := Option.none
  status : Option APIStatus := Option.none
deriving DecidableEq

structure ResponseMapping where
  successPath : Option String := Option.none
  errorHandling : Option String := Option.none
deriving DecidableEq

structure MCPTool where
  id : String
  name : String
  displayName : String
  description : String
  apiId : String
  method : String
  endpoint : String
  inputSchema : ConfigBlob
  responseMapping : Option ResponseMapping := Option.none
deriving DecidableEq

inductive PromptType where
  | system | contextual
deriving DecidableEq

structure MCPPrompt where
  id : String
  type : PromptType
  content : String
deriving DecidableEq

structure MCPResource where
  id : String
  name : String
  type : String
  uri : String
deriving DecidableEq

structure MCPConfiguration where
  globalPrompt : String
  model : String
  temperature : ℚ
  maxTokens : Nat
deriving DecidableEq

structure MCPIntegration where
  id : String
  name : String
  description : String
  version : String
  format : String
  author : String
  createdAt : String
  updatedAt : String
  published : Bool
  apis : List APIConfig
  tools : List MCPTool
  prompts : List MCPPrompt
  resources : List MCPResource
  configuration : MCPConfiguration
  stars : Option ℚ := Option.none
  reviews : Option Nat := Option.none
  uses : Option Nat := Option.none
  emoji : Option String := Option.none
deriving DecidableEq

structure FlowPosition where
  x : ℚ
  y : ℚ
deriving DecidableEq

structure FlowNodeData where
  label : String
  type : Option String := Option.none
  details : Option ConfigBlob := Option.none
deriving DecidableEq

structure FlowNode where
  id : String
  type : String
  position : FlowPosition
  data : FlowNodeData
deriving DecidableEq

/-- `Partial<APIConfig>`: every field optional, absent by default. -/
structure PartialAPIConfig where
  id : Option String := Option.none
  name : Option String := Option.none
  baseUrl : Option String := Option.none
  authentication : Option Authentication := Option.none
  routes : Option (List APIRoute) := Option.none
  headers : Option (Option (List (String × String))) := Option.none
  timeout : Option (Option Nat) := Option.none
  status : Option (Option APIStatus) := Option.none
deriving DecidableEq

/-- `Partial<MCPTool>`. -/
structure PartialMCPTool where
  id : Option String := Option.none
  name : Option String := Option.none
  displayName : Option String := Option.none
  description : Option String := Option.none
  apiId : Option String := Option.none
  method : Option String := Option.none
  endpoint : Option String := Option.none
  inputSchema : Option ConfigBlob := Option.none
  responseMapping : Option (Option ResponseMapping) := Option.none
deriving DecidableEq

/-- `Partial<MCPPrompt>`. -/
structure PartialMCPPrompt where
  id : Option String := Option.none
  type : Option PromptType := Option.none
  content : Option String := Option.none
deriving DecidableEq

/-- `Partial<MCPIntegration>`. -/
structure PartialMCPIntegration where
  id : Option String := Option.none
  name : Option String := Option.none
  description : Option String := Option.none
  version : Option String := Option.none
  format : Option String := Option.none
  author : Option String := Option.none
  createdAt : Option String := Option.none
  updatedAt : Option String := Option.none
  published : Option Bool := Option.none
  apis : Option (List APIConfig) := Option.none
  tools : Option (List MCPTool) := Option.none
  prompts : Option (List MCPPrompt) := Option.none
  resources : Option (List MCPResource) := Option.none
  configuration : Option MCPConfiguration := Option.none
  stars : Option (Option ℚ) := Option.none
  reviews : Option (Option Nat) := Option.none
  uses : Option (Option Nat) := Option.none
  emoji : Option (Option String) := Option.none
deriving DecidableEq

/-- TS spread `{...api, ...updates}` on an `APIConfig`. -/
def mergeAPIConfig (api : APIConfig) (updates : PartialAPIConfig) : APIConfig :=
  { id := updates.id.getD api.id
    name := updates.name.getD api.name
    baseUrl := updates.baseUrl.getD api.baseUrl
    authentication := updates.authentication.getD api.authentication
    routes := updates.routes.getD api.routes
    headers := updates.headers.getD api.headers
    timeout := updates.timeout.getD api.timeout
    status := updates.status.getD api.status }

/-- TS spread `{...tool, ...updates}` on an `MCPTool`. -/
def mergeMCPTool (tool : MCPTool) (updates : PartialMCPTool) : MCPTool :=
  { id := updates.id.getD tool.id
    name := updates.name.getD tool.name
    displayName := updates.displayName.getD tool.displayName
    description := updates.description.getD tool.description
    apiId := updates.apiId.getD tool.apiId
    method := updates.method.getD tool.method
    endpoint := updates.endpoint.getD tool.endpoint
    inputSchema := updates.inputSchema.getD tool.inputSchema
    responseMapping := updates.responseMapping.getD tool.responseMapping }

/-- TS spread `{...prompt, ...updates}` on an `MCPPrompt`. -/
def mergeMCPPrompt (prompt : MCPPrompt) (updates : PartialMCPPrompt) : MCPPrompt :=
  { id := updates.id.getD prompt.id
    type := updates.type.getD prompt.type
    content := updates.content.getD prompt.content }

/-- TS spread `{...mcp, ...updates}` on an `MCPIntegration`. -/
def mergeMCPIntegration (mcp : MCPIntegration) (updates : PartialMCPIntegration) :
    MCPIntegration :=
  { id := updates.id.getD mcp.id
    name := updates.name.getD mcp.name
    description := updates.description.getD mcp.description
    version := updates.version.getD mcp.version
    format := updates.format.getD mcp.format
    author := updates.author.getD mcp.author
    createdAt := updates.createdAt.getD mcp.createdAt
    updatedAt := updates.updatedAt.getD mcp.updatedAt
    published := updates.published.getD mcp.published
    apis := updates.apis.getD mcp.apis
    tools := updates.tools.getD mcp.tools
    prompts := updates.prompts.getD mcp.prompts
    resources := updates.resources.getD mcp.resources
    configuration := updates.configuration.getD mcp.configuration
    stars := updates.stars.getD mcp.stars
    reviews := updates.reviews.getD mcp.reviews
    uses := updates.uses.getD mcp.uses
    emoji := updates.emoji.getD mcp.emoji }

/-- TS spread of a full record into an update object (`{...original}`):
every field is present. -/
def spreadMCP (m : MCPIntegration) : PartialMCPIntegration :=
  { id := some m.id
    name := some m.name
    description := some m.description
    version := some m.version
    format := some m.format
    author := some m.author
    createdAt := some m.createdAt
    updatedAt := some m.updatedAt
    published := some m.published
    apis := some m.apis
    tools := some m.tools
    prompts := some m.prompts
    resources := some m.resources
    configuration := some m.configuration
    stars := some m.stars
    reviews := some m.reviews
    uses := some m.uses
    emoji := some m.emoji }

/-! ## Client state store (zustand store source file)

The store holds the integration being edited and the selected canvas node.
Every zustand mutation is a pure function from the previous state and the
argument to the next state; `set` with an object literal replaces exactly
the listed fields. -/

structure MCPStore where
  currentMCP : Option MCPIntegration
  selectedNode : Option FlowNode
deriving DecidableEq

namespace Store

/-- `setCurrentMCP: (mcp) => set({ currentMCP: mcp, selectedNode: null })`. -/
def setCurrentMCP (_st : MCPStore) (mcp : Option MCPIntegration) : MCPStore :=
  { currentMCP := mcp, selectedNode := none }

/-- `updateMCP: (updates) => set(...)`: shallow merge into the held
integration, no-op when none is held. -/
def updateMCP (st : MCPStore) (updates : PartialMCPIntegration) : MCPStore :=
  { st with currentMCP :=
      match st.currentMCP with
      | some m => some (mergeMCPIntegration m updates)
      | none => none }

/-- `addAPI`: append to the held integration's `apis`. -/
def addAPI (st : MCPStore) (api : APIConfig) : MCPStore :=
  { st with currentMCP :=
      match st.currentMCP with
      | some m => some { m with apis := m.apis ++ [api] }
      | none => none }

/-- `updateAPI`: shallow-merge into the element with matching id. -/
def updateAPI (st : MCPStore) (id : String) (updates : PartialAPIConfig) : MCPStore :=
  { st with currentMCP :=
      match st.currentMCP with
      | some m => some { m with apis := (m.apis.map (fun api =>
          if api.id == id then mergeAPIConfig api updates else api)) }
      | none => none }

/-- `deleteAPI`: filter out the element with matching id. -/
def deleteAPI (st : MCPStore) (id : String) : MCPStore :=
  { st with currentMCP :=
      match st.currentMCP with
      | some m => some { m with apis := m.apis.filter (fun api => api.id != id) }
      | none => none }

/-- `addTool`. -/
def addTool (st : MCPStore) (tool : MCPTool) : MCPStore :=
  { st with currentMCP :=
      match st.currentMCP with
      | some m => some { m with tools := m.tools ++ [tool] }
      | none => none }

/-- `updateTool`. -/
def updateTool (st : MCPStore) (id : String) (updates : PartialMCPTool) : MCPStore :=
  { st with currentMCP :=
      match st.currentMCP with
      | some m => some { m with tools := (m.tools.map (fun tool =>
          if tool.id == id then mergeMCPTool tool updates else tool)) }
      | none => none }

/-- `deleteTool`. -/
def deleteTool (st : MCPStore) (id : String) : MCPStore :=
  { st with currentMCP :=
      match st.currentMCP with
      | some m => some { m with tools := m.tools.filter (fun tool => tool.id != id) }
      | none => none }

/-- `addPrompt`. -/
def addPrompt (st : MCPStore) (prompt : MCPPrompt) : MCPStore :=
  { st with currentMCP :=
      match st.currentMCP with
      | some m => some { m with prompts := m.prompts ++ [prompt] }
      | none => none }

/-- `updatePrompt`. -/
def updatePrompt (st : MCPStore) (id : String) (updates : PartialMCPPrompt) : MCPStore :=
  { st with currentMCP :=
      match st.currentMCP with
      | some m => some { m with prompts := (m.prompts.map (fun prompt =>
          if prompt.id == id then mergeMCPPrompt prompt updates else prompt)) }
      | none => none }

/-- `deletePrompt`. -/
def deletePrompt (st : MCPStore) (id : String) : MCPStore :=
  { st with currentMCP :=
      match st.currentMCP with
      | some m => some { m with prompts := m.prompts.filter (fun prompt => prompt.id != id) }
      | none => none }

/-- `selectNode: (node) => set({ selectedNode: node })`. -/
def selectNode (st : MCPStore) (node : Option FlowNode) : MCPStore :=
  { st with selectedNode := node }

end Store

/-! ## Mock API client (src/lib/api-client.ts)

The backing collection `mockMCPs` is threaded explicitly; timestamp-derived
values (`Date.now().toString()`, `new Date().toISOString()`) are explicit
parameters.  Operations that mutate the collection return the new
collection; a thrown `Error('MCP not found')` is an `Except.error`. -/

namespace ApiClient

/-- `getMCP(id)`: `mockMCPs.find((mcp) => mcp.id === id) || null`. -/
def getMCP (ms : List MCPIntegration) (id : String) : Option MCPIntegration :=
  ms.find? (fun mcp => mcp.id == id)

/-- `createMCP(data)`: build `newMCP` from defaults overlaid with `data`
(`{...defaults, ...data}` — caller fields win, including a caller-supplied
id), push it, return it.  `genId` is `Date.now().toString()`, `now` is
`new Date().toISOString()`. -/
def createMCP (ms : List MCPIntegration) (genId now : String)
    (data : PartialMCPIntegration) : List MCPIntegration × MCPIntegration :=
  let newMCP : MCPIntegration :=
    { id := data.id.getD genId
      name := data.name.getD "New MCP"
      description := data.description.getD ""
      version := data.version.getD "1.0.0"
      format := data.format.getD "mcp"
      author := data.author.getD "@currentuser"
      createdAt := data.createdAt.getD now
      updatedAt := data.updatedAt.getD now
      published := data.published.getD false
      apis := data.apis.getD []
      tools := data.tools.getD []
      prompts := data.prompts.getD []
      resources := data.resources.getD []
      configuration := data.configuration.getD
        { globalPrompt := "", model := "gpt-4", temperature := 0.7, maxTokens := 1000 }
      stars := data.stars.getD Option.none
      reviews := data.reviews.getD Option.none
      uses := data.uses.getD Option.none
      emoji := data.emoji.getD Option.none }
  (ms ++ [newMCP], newMCP)

/-- `findIndex` on id followed by in-place assignment of the first matching
element (`mockMCPs[index] = {...mockMCPs[index], ...data, updatedAt: now}`),
rendered structurally: `none` when no element matches. -/
def updateFirst (id : String) (data : PartialMCPIntegration) (now : String) :
    List MCPIntegration → Option (List MCPIntegration × MCPIntegration)
  | [] => none
  | m :: ms =>
    if m.id == id then
      let updated := { mergeMCPIntegration m data with updatedAt := now }
      some (updated :: ms, updated)
    else
      (updateFirst id data now ms).map (fun r => (m :: r.1, r.2))

/-- `updateMCP(id, data)`: replace the first matching element, refreshing
`updatedAt` last in the spread; throw `'MCP not found'` when absent. -/
def updateMCP (ms : List MCPIntegration) (id : String)
    (data : PartialMCPIntegration) (now : String) :
    List MCPIntegration × Except String MCPIntegration :=
  match updateFirst id data now ms with
  | some r => (r.1, Except.ok r.2)
  | none => (ms, Except.error "MCP not found")

/-- `findIndex` on id followed by `splice(index, 1)`, rendered structurally:
removes the first matching element, `none` when no element matches. -/
def removeFirst (id : String) : List MCPIntegration → Option (List MCPIntegration)
  | [] => none
  | m :: ms =>
    if m.id == id then some ms
    else (removeFirst id ms).map (fun r => m :: r)

/-- `deleteMCP(id)`: remove the first matching element; silently no-op when
absent. -/
def deleteMCP (ms : List MCPIntegration) (id : String) : List MCPIntegration :=
  (removeFirst id ms).getD ms

/-- `forkMCP(id)`: read the source (throw when absent), then `createMCP`
with the source's fields overlaid with a fresh id, decorated name,
`published: false` and the fixed current-user author.  `forkId` is the
`Date.now().toString()` taken inside `forkMCP`, `genId`/`now` are the ones
taken inside `createMCP`. -/
def forkMCP (ms : List MCPIntegration) (id forkId genId now : String) :
    List MCPIntegration × Except String MCPIntegration :=
  match getMCP ms id with
  | none => (ms, Except.error "MCP not found")
  | some original =>
    let data := { spreadMCP original with
      id := some forkId
      name := some (original.name ++ " (Fork)")
      published := some false
      author := some "@currentuser" }
    let r := createMCP ms genId now data
    (r.1, Except.ok r.2)

end ApiClient

/-! ## Local persistence helper (src/lib/mockStorage.ts)

`localStorage` is an association list; the most recently written binding
for a key shadows older ones.  All operations below model the
browser-context path (`typeof window !== 'undefined'`) with no quota or
serialization failure, which is the setting of the claims. -/

inductive StoredValue where
  | mcp (m : MCPIntegration)
  | ids (l : List String)
deriving DecidableEq

abbrev Storage := List (String × StoredValue)

/-- `localStorage.getItem`. -/
def getItem (s : Storage) (k : String) : Option StoredValue :=
  (s.find? (fun p => p.1 == k)).map (fun p => p.2)

/-- `localStorage.setItem`: overwrite any previous binding of the key. -/
def setItem (s : Storage) (k : String) (v : StoredValue) : Storage :=
  (k, v) :: s.filter (fun p => p.1 != k)

/-- `localStorage.removeItem`. -/
def removeItem (s : Storage) (k : String) : Storage :=
  s.filter (fun p => p.1 != k)

namespace MockStorage

/-- `getMCPList()`: parse the value under `'mcp_list'`; an absent key is
`[]`.  When the key holds a serialized integration instead of an id list
(possible because `saveMCPToStorage` writes the record for id `"list"` to
the key `'mcp_' + 'list' = 'mcp_list'`), `JSON.parse` succeeds but the
result is not an array, and the caller's ensuing array-method call throws:
that hazard is the `Except.error` case. -/
def getMCPList (s : Storage) : Except Unit (List String) :=
  match getItem s "mcp_list" with
  | some (StoredValue.ids l) => Except.ok l
  | some (StoredValue.mcp _) => Except.error ()
  | none => Except.ok []

/-- `saveMCPToStorage(mcp)`: store the record under `'mcp_' + mcp.id`,
then append the id to the index list if absent.  A throw from the
index-update step (non-list index value) is swallowed by the enclosing
try/catch, leaving the per-id write in place. -/
def saveMCPToStorage (s : Storage) (mcp : MCPIntegration) : Storage :=
  let s1 := setItem s ("mcp_" ++ mcp.id) (StoredValue.mcp mcp)
  match getMCPList s1 with
  | Except.error _ => s1
  | Except.ok list =>
    if list.contains mcp.id then s1
    else setItem s1 "mcp_list" (StoredValue.ids (list ++ [mcp.id]))

/-- `loadMCPFromStorage(id)`: read and parse `'mcp_' + id`.  The TS cast
`JSON.parse(data) as MCPIntegration` performs no validation, so the raw
stored value is returned whatever its shape. -/
def loadMCPFromStorage (s : Storage) (id : String) : Option StoredValue :=
  getItem s ("mcp_" ++ id)

/-- `getAllMCPs()`: load every id in the index, dropping the nulls.  A
non-list index value makes `.map` throw, which the try/catch converts to
`[]`. -/
def getAllMCPs (s : Storage) : List StoredValue :=
  match getMCPList s with
  | Except.error _ => []
  | Except.ok list => (list.map (fun id => loadMCPFromStorage s id)).filterMap (fun x => x)

/-- `deleteMCPFromStorage(id)`: remove the per-id key, then rewrite the
index without that id.  A throw from the index step (non-list index value)
is swallowed, leaving only the per-id removal. -/
def deleteMCPFromStorage (s : Storage) (id : String) : Storage :=
  let s1 := removeItem s ("mcp_" ++ id)
  match getMCPList s1 with
  | Except.error _ => s1
  | Except.ok list =>
    setItem s1 "mcp_list" (StoredValue.ids (list.filter (fun x => x != id)))

/-- `createNewMCP()`: the persistence helper's default integration.  `id`
is `Date.now().toString()`, `now` is `new Date().toISOString()`. -/
def createNewMCP (id now : String) : MCPIntegration :=
  { id := id
    name := "Untitled MCP"
    description := ""
    version := "1.0.0"
    format := "gpt-4"
    author := "Anonymous"
    createdAt := now
    updatedAt := now
    published := false
    apis := []
    tools := []
    prompts := []
    resources := []
    configuration :=
      { globalPrompt := "You are a helpful AI assistant."
        model := "gpt-3.5-turbo"
        temperature := 0.7
        maxTokens := 2000 } }

/-- The id list currently readable from the index key (empty when the key
is absent or holds a non-list value). -/
def indexList (s : Storage) : List String :=
  match getMCPList s with
  | Except.ok l => l
  | Except.error _ => []

/-- The index key does not hold a serialized integration. -/
def indexIsList (s : Storage) : Bool :=
  match getItem s "mcp_list" with
  | some (StoredValue.mcp _) => false
  | _ => true

/-- A storage entry holding a serialized integration sits under the key
derived from that integration's id — the shape `saveMCPToStorage`
produces. -/
def entryConsistent : String × StoredValue → Bool
  | (k, StoredValue.mcp m) => k == "mcp_" ++ m.id
  | (_, StoredValue.ids _) => true

/-- Every serialized-integration entry of the storage is under its own
id-derived key. -/
def keyConsistent (s : Storage) : Bool :=
  s.all entryConsistent

end MockStorage

/-! ## C1 machinery: sequences of child-collection operations -/

/-- One operation on one child collection: the argument vector of one of the
store's add/update/delete functions for that collection. -/
inductive ColOp (α π : Type) where
  | add (a : α)
  | upd (id : String) (u : π)
  | del (id : String)

/-- Run one APIs-collection store operation. -/
def applyAPIOp (st : MCPStore) : ColOp APIConfig PartialAPIConfig → MCPStore
  | ColOp.add a => Store.addAPI st a
  | ColOp.upd i u => Store.updateAPI st i u
  | ColOp.del i => Store.deleteAPI st i

/-- Run one Tools-collection store operation. -/
def applyToolOp (st : MCPStore) : ColOp MCPTool PartialMCPTool → MCPStore
  | ColOp.add a => Store.addTool st a
  | ColOp.upd i u => Store.updateTool st i u
  | ColOp.del i => Store.deleteTool st i

/-- Run one Prompts-collection store operation. -/
def applyPromptOp (st : MCPStore) : ColOp MCPPrompt PartialMCPPrompt → MCPStore
  | ColOp.add a => Store.addPrompt st a
  | ColOp.upd i u => Store.updatePrompt st i u
  | ColOp.del i => Store.deletePrompt st i

/-- The list rewrite each store operation performs on its child collection:
add appends, update shallow-merges into matching-id elements, delete
filters out matching-id elements. -/
def applyCol {α π : Type} (key : α → String) (mrg : α → π → α) (l : List α) :
    ColOp α π → List α
  | ColOp.add a => l ++ [a]
  | ColOp.upd i u => l.map (fun x => if key x == i then mrg x u else x)
  | ColOp.del i => l.filter (fun x => key x != i)

/-- Fold a sequence of collection operations at list level. -/
def applyCols {α π : Type} (key : α → String) (mrg : α → π → α)
    (l : List α) (ops : List (ColOp α π)) : List α :=
  ops.foldl (applyCol key mrg) l

/-- Expected identifier list after one operation. -/
def colOpIds {α π : Type} (key : α → String) (ids : List String) :
    ColOp α π → List String
  | ColOp.add a => ids ++ [key a]
  | ColOp.upd _ _ => ids
  | ColOp.del i => ids.filter (fun x => x != i)

/-- Expected identifier list after a sequence of operations. -/
def expIds {α π : Type} (key : α → String) (ids : List String)
    (ops : List (ColOp α π)) : List String :=
  ops.foldl (colOpIds key) ids

/-- Identifiers targeted by a sequence: added ids and update/delete targets. -/
def touchedIds {α π : Type} (key : α → String) : List (ColOp α π) → List String
  | [] => []
  | ColOp.add a :: ops => key a :: touchedIds key ops
  | ColOp.upd i _ :: ops => i :: touchedIds key ops
  | ColOp.del i :: ops => i :: touchedIds key ops

/-- The operation's update object, if any, leaves the identifier field alone. -/
def opKeepsId {α π : Type} (uKeep : π → Bool) : ColOp α π → Bool
  | ColOp.upd _ u => uKeep u
  | _ => true

/-- The identifier an operation targets: the added element's id, or the
update/delete target id. -/
def opTarget {α π : Type} (key : α → String) : ColOp α π → String
  | ColOp.add a => key a
  | ColOp.upd i _ => i
  | ColOp.del i => i

/-- Well-formed sequence relative to the current identifier list: every add
uses a fresh identifier, and no update rewrites an identifier. -/
def legalOps {α π : Type} (key : α → String) (uKeep : π → Bool) :
    List String → List (ColOp α π) → Bool
  | _, [] => true
  | ids, op :: ops =>
    (match op with
     | ColOp.add a => !(ids.contains (key a))
     | ColOp.upd _ u => uKeep u
     | ColOp.del _ => true)
    && legalOps key uKeep (colOpIds key ids op) ops

/-- The APIs collection held by the store (empty when nothing is held). -/
def apisOf (st : MCPStore) : List APIConfig :=
  match st.currentMCP with
  | some m => m.apis
  | none => []

/-- The Tools collection held by the store. -/
def toolsOf (st : MCPStore) : List MCPTool :=
  match st.currentMCP with
  | some m => m.tools
  | none => []

/-- The Prompts collection held by the store. -/
def promptsOf (st : MCPStore) : List MCPPrompt :=
  match st.currentMCP with
  | some m => m.prompts
  | none => []

/-! ## Concrete sample values used by witnesses -/

/-- A concrete API registration. -/
def sampleAPI (id : String) : APIConfig :=
  { id := id, name := "api", baseUrl := "https://example.com",
    authentication := { type := AuthType.none }, routes := [] }

/-- A concrete store holding a fresh default integration. -/
def sampleStore : MCPStore :=
  { currentMCP := some (MockStorage.createNewMCP "0" "t0"), selectedNode := none }

/-- A concrete storage: two default integrations saved into empty storage. -/
def sampleStorage : Storage :=
  MockStorage.saveMCPToStorage
    (MockStorage.saveMCPToStorage [] (MockStorage.createNewMCP "1" "t1"))
    (MockStorage.createNewMCP "2" "t2")

/-- A concrete backing collection for the mock client. -/
def sampleMCPs : List MCPIntegration :=
  [MockStorage.createNewMCP "1" "t1", MockStorage.createNewMCP "2" "t2"]

/-- A concrete sequence of APIs-collection operations: one fresh add, one
identifier-preserving update, one delete. -/
def sampleAPIOps : List (ColOp APIConfig PartialAPIConfig) :=
  [ColOp.add (sampleAPI "a"), ColOp.add (sampleAPI "b"),
   ColOp.upd "a" { name := some "renamed" }, ColOp.del "b"]

/-! ## Helper lemmas: strings and the storage association list -/

theorem strAppendCancel {p x y : String} (h : p ++ x = p ++ y) : x = y := by
  apply String.ext
  have hd := congrArg String.data h
  rw [String.data_append, String.data_append] at hd
  exact List.append_cancel_left hd

theorem mcpKey_ne_listKey {x : String} (h : x ≠ "list") :
    ("mcp_" ++ x : String) ≠ "mcp_list" := by
  intro hc
  exact h (strAppendCancel (p := "mcp_") (show ("mcp_" ++ x : String) = "mcp_" ++ "list" from hc))

theorem contains_iff_mem {a : String} {l : List String} :
    l.contains a = true ↔ a ∈ l := by
  unfold List.contains
  exact List.elem_iff

theorem find?_filter_ne_key (k k' : String) (h : k' ≠ k) :
    ∀ s : Storage,
      (s.filter (fun p => p.1 != k)).find? (fun p => p.1 == k')
        = s.find? (fun p => p.1 == k')
  | [] => rfl
  | x :: s => by
    by_cases hx : x.1 = k'
    · have h1 : (x.1 == k') = true := by simp [hx]
      have h2 : (x.1 != k) = true := by simp [hx]; exact hx ▸ h
      simp [List.filter_cons, h2, List.find?_cons, h1]
    · have h1 : (x.1 == k') = false := by simp [hx]
      by_cases hxk : x.1 = k
      · have h2 : (x.1 != k) = false := by simp [hxk]
        simp [List.filter_cons, h2, List.find?_cons, h1, find?_filter_ne_key k k' h s]
      · have h2 : (x.1 != k) = true := by simp [hxk]
        simp [List.filter_cons, h2, List.find?_cons, h1, find?_filter_ne_key k k' h s]

theorem find?_filter_self_key (k : String) :
    ∀ s : Storage, (s.filter (fun p => p.1 != k)).find? (fun p => p.1 == k) = none
  | [] => rfl
  | x :: s => by
    by_cases hx : x.1 = k
    · have h2 : (x.1 != k) = false := by simp [hx]
      simp [List.filter_cons, h2, find?_filter_self_key k s]
    · have h1 : (x.1 == k) = false := by simp [hx]
      have h2 : (x.1 != k) = true := by simp [hx]
      simp [List.filter_cons, h2, List.find?_cons, h1, find?_filter_self_key k s]

theorem getItem_setItem_self (s : Storage) (k : String) (v : StoredValue) :
    getItem (setItem s k v) k = some v := by
  simp [getItem, setItem, List.find?_cons]

theorem getItem_setItem_ne (s : Storage) (k k' : String) (v : StoredValue)
    (h : k' ≠ k) : getItem (setItem s k v) k' = getItem s k' := by
  have h1 : (k == k') = false := by simp; exact fun hc => h hc.symm
  simp only [getItem, setItem, List.find?_cons, h1]
  rw [find?_filter_ne_key k k' h s]

theorem getItem_removeItem_self (s : Storage) (k : String) :
    getItem (removeItem s k) k = none := by
  simp only [getItem, removeItem]
  rw [find?_filter_self_key k s]
  rfl

theorem getItem_removeItem_ne (s : Storage) (k k' : String) (h : k' ≠ k) :
    getItem (removeItem s k) k' = getItem s k' := by
  simp only [getItem, removeItem]
  rw [find?_filter_ne_key k k' h s]

/-! ## C2: save/load round trip -/

/-- C2: for every Integration value, the persistence helper's `save`
followed by `load` of the same id (browser context, no storage failure)
returns a value deep-equal to the original. -/
theorem c2_save_load_roundtrip (s : Storage) (m : MCPIntegration) :
    MockStorage.loadMCPFromStorage (MockStorage.saveMCPToStorage s m) m.id
      = some (StoredValue.mcp m) := by
  unfold MockStorage.loadMCPFromStorage MockStorage.saveMCPToStorage
  by_cases hid : m.id = "list"
  · have hk : ("mcp_" ++ m.id : String) = "mcp_list" := by rw [hid]; exact rfl
    have h1 : getItem (setItem s ("mcp_" ++ m.id) (StoredValue.mcp m)) "mcp_list"
        = some (StoredValue.mcp m) := by
      rw [← hk]; exact getItem_setItem_self s _ _
    simp [MockStorage.getMCPList, h1, getItem_setItem_self]
  · have hk : ("mcp_" ++ m.id : String) ≠ "mcp_list" := mcpKey_ne_listKey hid
    cases hml : MockStorage.getMCPList (setItem s ("mcp_" ++ m.id) (StoredValue.mcp m)) with
    | error e => simp [hml, getItem_setItem_self]
    | ok l =>
      by_cases hc : m.id ∈ l
      · simp [hml, hc, getItem_setItem_self]
      · have hc' : l.contains m.id = false := by
          cases h : l.contains m.id with
          | false => rfl
          | true => exact absurd (contains_iff_mem.mp h) hc
        simp only [hml, hc', Bool.false_eq_true, if_false]
        rw [getItem_setItem_ne _ _ _ _ hk]
        exact getItem_setItem_self s _ _

/-! ## C8: `set current integration` clears the selection -/

/-- C8: for every store state and every argument, `setCurrentMCP` leaves the
selected node cleared. -/
theorem c8_setCurrentMCP_clears_selection (st : MCPStore)
    (mcp : Option MCPIntegration) :
    (Store.setCurrentMCP st mcp).selectedNode = none := rfl

/-! ## C9: the save/index idempotence invariant -/

theorem nodup_append_singleton {a : String} {l : List String}
    (hnm : a ∉ l) (hnd : l.Nodup) : (l ++ [a]).Nodup := by
  rw [List.nodup_append]
  refine ⟨hnd, List.nodup_singleton a, ?_⟩
  intro x hx hx'
  simp only [List.mem_singleton] at hx'
  exact hnm (hx' ▸ hx)

theorem save_eq_of_error (s : Storage) (m : MCPIntegration)
    (h : MockStorage.getMCPList (setItem s ("mcp_" ++ m.id) (StoredValue.mcp m))
        = Except.error ()) :
    MockStorage.saveMCPToStorage s m
      = setItem s ("mcp_" ++ m.id) (StoredValue.mcp m) := by
  unfold MockStorage.saveMCPToStorage
  dsimp only
  rw [h]

theorem save_eq_of_mem (s : Storage) (m : MCPIntegration) (l : List String)
    (h : MockStorage.getMCPList (setItem s ("mcp_" ++ m.id) (StoredValue.mcp m))
        = Except.ok l)
    (hc : l.contains m.id = true) :
    MockStorage.saveMCPToStorage s m
      = setItem s ("mcp_" ++ m.id) (StoredValue.mcp m) := by
  have hm : m.id ∈ l := contains_iff_mem.mp hc
  unfold MockStorage.saveMCPToStorage
  dsimp only
  rw [h]
  simp [hm]

theorem save_eq_of_not_mem (s : Storage) (m : MCPIntegration) (l : List String)
    (h : MockStorage.getMCPList (setItem s ("mcp_" ++ m.id) (StoredValue.mcp m))
        = Except.ok l)
    (hc : l.contains m.id = false) :
    MockStorage.saveMCPToStorage s m
      = setItem (setItem s ("mcp_" ++ m.id) (StoredValue.mcp m)) "mcp_list"
          (StoredValue.ids (l ++ [m.id])) := by
  have hm : m.id ∉ l := fun hmem => by
    rw [contains_iff_mem.mpr hmem] at hc
    exact Bool.noConfusion hc
  unfold MockStorage.saveMCPToStorage
  dsimp only
  rw [h]
  simp [hm]

theorem indexList_setItem_ids (s : Storage) (l : List String) :
    MockStorage.indexList (setItem s "mcp_list" (StoredValue.ids l)) = l := by
  simp [MockStorage.indexList, MockStorage.getMCPList, getItem_setItem_self]

theorem save_preserves_index_nodup (s : Storage) (m : MCPIntegration)
    (h : (MockStorage.indexList s).Nodup) :
    (MockStorage.indexList (MockStorage.saveMCPToStorage s m)).Nodup := by
  by_cases hid : m.id = "list"
  · -- the per-id write lands on the index key, the index step throws,
    -- and the index reads back as a non-list value, i.e. as the empty list
    have hk : ("mcp_" ++ m.id : String) = "mcp_list" := by rw [hid]; exact rfl
    have h1 : getItem (setItem s ("mcp_" ++ m.id) (StoredValue.mcp m)) "mcp_list"
        = some (StoredValue.mcp m) := by
      rw [← hk]; exact getItem_setItem_self s _ _
    have hml : MockStorage.getMCPList
        (setItem s ("mcp_" ++ m.id) (StoredValue.mcp m)) = Except.error () := by
      unfold MockStorage.getMCPList
      rw [h1]
    rw [save_eq_of_error s m hml]
    simp [MockStorage.indexList, hml]
  · have hk : ("mcp_" ++ m.id : String) ≠ "mcp_list" := mcpKey_ne_listKey hid
    have hsame : getItem (setItem s ("mcp_" ++ m.id) (StoredValue.mcp m)) "mcp_list"
        = getItem s "mcp_list" := getItem_setItem_ne s _ _ _ (Ne.symm hk)
    cases hv : getItem s "mcp_list" with
    | none =>
      have hml : MockStorage.getMCPList
          (setItem s ("mcp_" ++ m.id) (StoredValue.mcp m)) = Except.ok [] := by
        unfold MockStorage.getMCPList
        rw [hsame, hv]
      rw [save_eq_of_not_mem s m [] hml rfl, indexList_setItem_ids]
      simp
    | some v =>
      cases v with
      | mcp m2 =>
        have hml : MockStorage.getMCPList
            (setItem s ("mcp_" ++ m.id) (StoredValue.mcp m)) = Except.error () := by
          unfold MockStorage.getMCPList
          rw [hsame, hv]
        rw [save_eq_of_error s m hml]
        simp [MockStorage.indexList, hml]
      | ids l =>
        have hml : MockStorage.getMCPList
            (setItem s ("mcp_" ++ m.id) (StoredValue.mcp m)) = Except.ok l := by
          unfold MockStorage.getMCPList
          rw [hsame, hv]
        have hl : MockStorage.indexList s = l := by
          simp [MockStorage.indexList, MockStorage.getMCPList, hv]
        rw [hl] at h
        by_cases hc : m.id ∈ l
        · rw [save_eq_of_mem s m l hml (contains_iff_mem.mpr hc)]
          simp [MockStorage.indexList, hml, h]
        · have hc2 : l.contains m.id = false := by
            cases hcc : l.contains m.id with
            | false => rfl
            | true => exact absurd (contains_iff_mem.mp hcc) hc
          rw [save_eq_of_not_mem s m l hml hc2, indexList_setItem_ids]
          exact nodup_append_singleton hc h

/-- C9: the persistence helper's save is idempotent with respect to the
index list — starting from a duplicate-free index, any sequence of saves
leaves an index that contains each identifier at most once. -/
theorem c9_save_index_nodup (s : Storage) (ms : List MCPIntegration)
    (h : (MockStorage.indexList s).Nodup) :
    (MockStorage.indexList (ms.foldl MockStorage.saveMCPToStorage s)).Nodup := by
  induction ms generalizing s with
  | nil => exact h
  | cons m ms ih => exact ih _ (save_preserves_index_nodup s m h)

/-- C9 witness: saving the same integration twice from an empty storage
keeps the index duplicate-free. -/
theorem c9_save_index_nodup_witness :
    (MockStorage.indexList ([] : Storage)).Nodup
    ∧ (MockStorage.indexList
        ([MockStorage.createNewMCP "1" "t1",
          MockStorage.createNewMCP "1" "t1"].foldl MockStorage.saveMCPToStorage
          ([] : Storage))).Nodup :=
  ⟨by decide, c9_save_index_nodup [] _ (by decide)⟩

/-! ## C7: delete removes record and index entry -/

theorem delete_eq_of_ok (s : Storage) (id : String) (l : List String)
    (h : MockStorage.getMCPList (removeItem s ("mcp_" ++ id)) = Except.ok l) :
    MockStorage.deleteMCPFromStorage s id
      = setItem (removeItem s ("mcp_" ++ id)) "mcp_list"
          (StoredValue.ids (l.filter (fun x => x != id))) := by
  unfold MockStorage.deleteMCPFromStorage
  dsimp only
  rw [h]

theorem keyConsistent_getItem (s : Storage)
    (hkc : MockStorage.keyConsistent s = true) (k : String) (m : MCPIntegration)
    (h : getItem s k = some (StoredValue.mcp m)) : k = "mcp_" ++ m.id := by
  unfold getItem at h
  obtain ⟨p, hp, hp2⟩ := Option.map_eq_some'.mp h
  have hmem : p ∈ s := List.mem_of_find?_eq_some hp
  have hpk0 := List.find?_some hp
  have hpk : p.1 = k := beq_iff_eq.mp hpk0
  have hec := List.all_eq_true.mp hkc p hmem
  obtain ⟨k0, v0⟩ := p
  dsimp only at hp2 hpk
  subst hp2
  subst hpk
  simp [MockStorage.entryConsistent] at hec
  exact hec

/-- C7 counterexample: the identifier `"list"` collides with the index key
(`'mcp_' + 'list' = 'mcp_list'`).  After saving an integration with id
`"list"` (so it is a stored identifier) and deleting it, a subsequent load
of `"list"` returns the freshly rewritten index value — not nothing, as
the claim requires. -/
theorem c7_counterexample :
    MockStorage.loadMCPFromStorage
        (MockStorage.saveMCPToStorage [] (MockStorage.createNewMCP "list" "t0"))
        "list" ≠ none
    ∧ MockStorage.loadMCPFromStorage
        (MockStorage.deleteMCPFromStorage
          (MockStorage.saveMCPToStorage [] (MockStorage.createNewMCP "list" "t0"))
          "list")
        "list" ≠ none := by
  constructor <;> decide

/-- C7 (amended): for every stored identifier other than `"list"` (whose
per-id key would collide with the index key), in a storage whose index key
holds a list and whose serialized-integration entries sit under their own
id-derived keys, delete removes both the per-id record and that
identifier's index entry: a subsequent load of the identifier returns
nothing, the identifier is gone from the index, and loadAll returns no
integration with that identifier. -/
theorem c7_delete_amended (s : Storage) (id : String)
    (_hstored : MockStorage.loadMCPFromStorage s id ≠ none)
    (hidx : MockStorage.indexIsList s = true)
    (hkc : MockStorage.keyConsistent s = true)
    (hne : id ≠ "list") :
    MockStorage.loadMCPFromStorage (MockStorage.deleteMCPFromStorage s id) id = none
    ∧ id ∉ MockStorage.indexList (MockStorage.deleteMCPFromStorage s id)
    ∧ (MockStorage.getAllMCPs (MockStorage.deleteMCPFromStorage s id)).all
        (fun v => match v with
          | StoredValue.mcp m2 => m2.id != id
          | StoredValue.ids _ => true) = true := by
  have hk : ("mcp_" ++ id : String) ≠ "mcp_list" := mcpKey_ne_listKey hne
  have hsame : getItem (removeItem s ("mcp_" ++ id)) "mcp_list"
      = getItem s "mcp_list" := getItem_removeItem_ne s _ _ (Ne.symm hk)
  have hexists : ∃ l, MockStorage.getMCPList (removeItem s ("mcp_" ++ id))
      = Except.ok l := by
    cases hv : getItem s "mcp_list" with
    | none =>
      refine ⟨[], ?_⟩
      unfold MockStorage.getMCPList
      rw [hsame, hv]
    | some v =>
      cases v with
      | ids l =>
        refine ⟨l, ?_⟩
        unfold MockStorage.getMCPList
        rw [hsame, hv]
      | mcp m2 => simp [MockStorage.indexIsList, hv] at hidx
  obtain ⟨l, hml⟩ := hexists
  rw [delete_eq_of_ok s id l hml]
  refine ⟨?_, ?_, ?_⟩
  · unfold MockStorage.loadMCPFromStorage
    rw [getItem_setItem_ne _ _ _ _ hk]
    exact getItem_removeItem_self s _
  · rw [indexList_setItem_ids]
    intro hmem
    obtain ⟨-, hp⟩ := List.mem_filter.mp hmem
    simp at hp
  · rw [List.all_eq_true]
    intro v hv
    unfold MockStorage.getAllMCPs at hv
    have hml2 : MockStorage.getMCPList
        (setItem (removeItem s ("mcp_" ++ id)) "mcp_list"
          (StoredValue.ids (l.filter (fun x => x != id))))
        = Except.ok (l.filter (fun x => x != id)) := by
      unfold MockStorage.getMCPList
      rw [getItem_setItem_self]
    rw [hml2] at hv
    obtain ⟨ov, hov, hov2⟩ := List.mem_filterMap.mp hv
    obtain ⟨j, hj, hj2⟩ := List.mem_map.mp hov
    have hjne : j ≠ id := by
      obtain ⟨-, hp⟩ := List.mem_filter.mp hj
      exact bne_iff_ne.mp hp
    cases v with
    | ids l2 => rfl
    | mcp m2 =>
      have hload : getItem
          (setItem (removeItem s ("mcp_" ++ id)) "mcp_list"
            (StoredValue.ids (l.filter (fun x => x != id))))
          ("mcp_" ++ j) = some (StoredValue.mcp m2) := by
        rw [hov2] at hj2
        unfold MockStorage.loadMCPFromStorage at hj2
        exact hj2
      by_cases hjl : j = "list"
      · exfalso
        rw [hjl, show ("mcp_" ++ "list" : String) = "mcp_list" from rfl,
          getItem_setItem_self] at hload
        exact StoredValue.noConfusion (Option.some.inj hload)
      · have hk2 : ("mcp_" ++ j : String) ≠ "mcp_list" := mcpKey_ne_listKey hjl
        rw [getItem_setItem_ne _ _ _ _ hk2] at hload
        have hk3 : ("mcp_" ++ j : String) ≠ ("mcp_" ++ id) := by
          intro hcc
          exact hjne (strAppendCancel hcc)
        rw [getItem_removeItem_ne s _ _ hk3] at hload
        have hkey := keyConsistent_getItem s hkc _ m2 hload
        have hid2 : m2.id = j := (strAppendCancel hkey.symm)
        show (m2.id != id) = true
        rw [hid2]
        exact bne_iff_ne.mpr hjne

/-- C7 witness for the amended theorem: a storage holding two ordinary
integrations, deleting id "1". -/
theorem c7_delete_amended_witness :
    (MockStorage.loadMCPFromStorage sampleStorage "1" ≠ none
      ∧ MockStorage.indexIsList sampleStorage = true
      ∧ MockStorage.keyConsistent sampleStorage = true
      ∧ ("1" : String) ≠ "list")
    ∧ (MockStorage.loadMCPFromStorage
          (MockStorage.deleteMCPFromStorage sampleStorage "1") "1" = none
        ∧ "1" ∉ MockStorage.indexList
            (MockStorage.deleteMCPFromStorage sampleStorage "1")
        ∧ (MockStorage.getAllMCPs
              (MockStorage.deleteMCPFromStorage sampleStorage "1")).all
            (fun v => match v with
              | StoredValue.mcp m2 => m2.id != "1"
              | StoredValue.ids _ => true) = true) :=
  ⟨⟨by decide, by decide, by decide, by decide⟩,
    c7_delete_amended sampleStorage "1" (by decide) (by decide) (by decide)
      (by decide)⟩

/-! ## C3/C4: mock client create, getOne and fork -/

theorem find?_append_fresh (gid : String) :
    ∀ (ms : List MCPIntegration) (x : MCPIntegration),
      gid ∉ ms.map MCPIntegration.id → (x.id == gid) = true →
      (ms ++ [x]).find? (fun m => m.id == gid) = some x
  | [], x, _, hx => by simp [List.find?_cons, hx]
  | m :: ms, x, h, hx => by
    have h1 : m.id ≠ gid := by
      intro hc
      exact h (by simp [List.map_cons, hc])
    have h2 : gid ∉ ms.map MCPIntegration.id := by
      intro hc
      exact h (by simp [List.map_cons, hc])
    have h3 : (m.id == gid) = false := by simp [h1]
    simp only [List.cons_append, List.find?_cons, h3]
    exact find?_append_fresh gid ms x h2 hx

/-- C3: mock client `create({name: "X"})` followed by `getOne` of the
returned integration's identifier yields an integration named "X" with
default version "1.0.0", all four child collections empty, and
published = false.  The generated identifier is assumed fresh, as a
`Date.now()` value is against the seed data's small numeric ids. -/
theorem c3_create_then_getOne (ms : List MCPIntegration) (genId now : String)
    (h : genId ∉ ms.map MCPIntegration.id) :
    let r := ApiClient.createMCP ms genId now { name := some "X" }
    ApiClient.getMCP r.1 r.2.id = some r.2
    ∧ r.2.name = "X" ∧ r.2.version = "1.0.0"
    ∧ r.2.apis = [] ∧ r.2.tools = [] ∧ r.2.prompts = [] ∧ r.2.resources = []
    ∧ r.2.published = false := by
  intro r
  refine ⟨?_, rfl, rfl, rfl, rfl, rfl, rfl, rfl⟩
  show ApiClient.getMCP (ms ++ [r.2]) r.2.id = some r.2
  have hid : r.2.id = genId := rfl
  rw [hid]
  exact find?_append_fresh genId ms r.2 h (by rw [hid]; simp)

/-- C3 witness. -/
theorem c3_create_then_getOne_witness :
    ("fresh" ∉ sampleMCPs.map MCPIntegration.id)
    ∧ (let r := ApiClient.createMCP sampleMCPs "fresh" "t3" { name := some "X" }
       ApiClient.getMCP r.1 r.2.id = some r.2
       ∧ r.2.name = "X" ∧ r.2.version = "1.0.0"
       ∧ r.2.apis = [] ∧ r.2.tools = [] ∧ r.2.prompts = [] ∧ r.2.resources = []
       ∧ r.2.published = false) :=
  ⟨by decide, c3_create_then_getOne sampleMCPs "fresh" "t3" (by decide)⟩

/-- C4: mock client `fork` of an existing identifier yields a new
integration whose name is the original's name followed by " (Fork)", whose
identifier is the fresh timestamp identifier (hence differs from the
original's), and whose published flag is false. -/
theorem c4_fork_properties (ms : List MCPIntegration) (id forkId genId now : String)
    (orig : MCPIntegration) (horig : ApiClient.getMCP ms id = some orig)
    (hne : forkId ≠ id) :
    (ApiClient.forkMCP ms id forkId genId now).2.map MCPIntegration.name
        = Except.ok (orig.name ++ " (Fork)")
    ∧ (ApiClient.forkMCP ms id forkId genId now).2.map MCPIntegration.id
        = Except.ok forkId
    ∧ forkId ≠ orig.id
    ∧ (ApiClient.forkMCP ms id forkId genId now).2.map MCPIntegration.published
        = Except.ok false := by
  have horig' : ms.find? (fun m => m.id == id) = some orig := horig
  have h0 := List.find?_some horig'
  have horigid : orig.id = id := beq_iff_eq.mp h0
  unfold ApiClient.forkMCP
  rw [horig]
  exact ⟨rfl, rfl, fun hc => hne (horigid ▸ hc), rfl⟩

/-- C4 witness. -/
theorem c4_fork_properties_witness :
    (ApiClient.getMCP sampleMCPs "1"
        = some (MockStorage.createNewMCP "1" "t1")
      ∧ ("f9" : String) ≠ "1")
    ∧ ((ApiClient.forkMCP sampleMCPs "1" "f9" "g9" "t9").2.map MCPIntegration.name
          = Except.ok ((MockStorage.createNewMCP "1" "t1").name ++ " (Fork)")
        ∧ (ApiClient.forkMCP sampleMCPs "1" "f9" "g9" "t9").2.map MCPIntegration.id
          = Except.ok "f9"
        ∧ ("f9" : String) ≠ (MockStorage.createNewMCP "1" "t1").id
        ∧ (ApiClient.forkMCP sampleMCPs "1" "f9" "g9" "t9").2.map
            MCPIntegration.published = Except.ok false) :=
  ⟨⟨rfl, by decide⟩,
    c4_fork_properties sampleMCPs "1" "f9" "g9" "t9"
      (MockStorage.createNewMCP "1" "t1") rfl (by decide)⟩

/-! ## C5/C6/C10: mock client update and delete -/

theorem updateFirst_eq_none (id : String) (data : PartialMCPIntegration)
    (now : String) :
    ∀ ms : List MCPIntegration, id ∉ ms.map MCPIntegration.id →
      ApiClient.updateFirst id data now ms = none
  | [], _ => rfl
  | m :: ms, h => by
    have h1 : m.id ≠ id := by
      intro hc
      exact h (by simp [List.map_cons, hc])
    have h2 : id ∉ ms.map MCPIntegration.id := by
      intro hc
      exact h (by simp [List.map_cons, hc])
    have h3 : (m.id == id) = false := by simp [h1]
    simp only [ApiClient.updateFirst, h3, Bool.false_eq_true, if_false]
    rw [updateFirst_eq_none id data now ms h2]
    rfl

/-- C5: mock client `update` of an identifier absent from the backing
collection rejects with the not-found error and leaves the backing
collection unchanged. -/
theorem c5_update_missing_id (ms : List MCPIntegration) (id : String)
    (data : PartialMCPIntegration) (now : String)
    (h : id ∉ ms.map MCPIntegration.id) :
    (ApiClient.updateMCP ms id data now).1 = ms
    ∧ (ApiClient.updateMCP ms id data now).2 = Except.error "MCP not found" := by
  unfold ApiClient.updateMCP
  rw [updateFirst_eq_none id data now ms h]
  exact ⟨rfl, rfl⟩

/-- C5 witness. -/
theorem c5_update_missing_id_witness :
    ("missing-id" ∉ sampleMCPs.map MCPIntegration.id)
    ∧ ((ApiClient.updateMCP sampleMCPs "missing-id" { name := some "n" } "t9").1
          = sampleMCPs
        ∧ (ApiClient.updateMCP sampleMCPs "missing-id" { name := some "n" } "t9").2
          = Except.error "MCP not found") :=
  ⟨by decide,
    c5_update_missing_id sampleMCPs "missing-id" { name := some "n" } "t9"
      (by decide)⟩

theorem removeFirst_eq_none (id : String) :
    ∀ ms : List MCPIntegration, id ∉ ms.map MCPIntegration.id →
      ApiClient.removeFirst id ms = none
  | [], _ => rfl
  | m :: ms, h => by
    have h1 : m.id ≠ id := by
      intro hc
      exact h (by simp [List.map_cons, hc])
    have h2 : id ∉ ms.map MCPIntegration.id := by
      intro hc
      exact h (by simp [List.map_cons, hc])
    have h3 : (m.id == id) = false := by simp [h1]
    simp only [ApiClient.removeFirst, h3, Bool.false_eq_true, if_false]
    rw [removeFirst_eq_none id ms h2]
    rfl

/-- C6: mock client `delete` of an identifier absent from the backing
collection completes without error (it is a total function in the model)
and leaves the backing collection unchanged. -/
theorem c6_delete_missing_id (ms : List MCPIntegration) (id : String)
    (h : id ∉ ms.map MCPIntegration.id) :
    ApiClient.deleteMCP ms id = ms := by
  unfold ApiClient.deleteMCP
  rw [removeFirst_eq_none id ms h]
  rfl

/-- C6 witness. -/
theorem c6_delete_missing_id_witness :
    ("missing-id" ∉ sampleMCPs.map MCPIntegration.id)
    ∧ ApiClient.deleteMCP sampleMCPs "missing-id" = sampleMCPs :=
  ⟨by decide, c6_delete_missing_id sampleMCPs "missing-id" (by decide)⟩

theorem updateFirst_updatedAt (id : String) (data : PartialMCPIntegration)
    (now : String) :
    ∀ (ms : List MCPIntegration) (r : List MCPIntegration × MCPIntegration),
      ApiClient.updateFirst id data now ms = some r → r.2.updatedAt = now
  | [], r, h => by exact Option.noConfusion h
  | m :: ms, r, h => by
    by_cases hm : (m.id == id) = true
    · simp only [ApiClient.updateFirst, hm, if_true] at h
      obtain rfl := Option.some.inj h
      rfl
    · have hm' : (m.id == id) = false := Bool.eq_false_iff.mpr hm
      simp only [ApiClient.updateFirst, hm', Bool.false_eq_true, if_false] at h
      obtain ⟨r2, hr2, hr2e⟩ := Option.map_eq_some'.mp h
      have := updateFirst_updatedAt id data now ms r2 hr2
      rw [← hr2e]
      exact this

theorem updateFirst_isSome (id : String) (data : PartialMCPIntegration)
    (now : String) :
    ∀ ms : List MCPIntegration, id ∈ ms.map MCPIntegration.id →
      (ApiClient.updateFirst id data now ms).isSome = true
  | [], h => by simp at h
  | m :: ms, h => by
    by_cases hm : (m.id == id) = true
    · simp [ApiClient.updateFirst, hm]
    · have hm' : (m.id == id) = false := Bool.eq_false_iff.mpr hm
      have h2 : id ∈ ms.map MCPIntegration.id := by
        rcases List.mem_cons.mp h with hc | hc
        · exact absurd (beq_iff_eq.mpr hc.symm) hm
        · exact hc
      simp only [ApiClient.updateFirst, hm', Bool.false_eq_true, if_false]
      have hs := updateFirst_isSome id data now ms h2
      obtain ⟨r, hr⟩ := Option.isSome_iff_exists.mp hs
      simp [hr]

/-- C10: for every identifier present in the backing collection, the mock
client's `update` stores `now` as the update-timestamp even when the
caller's partial itself carries an `updatedAt` value; the caller-supplied
value is never the one stored. -/
theorem c10_update_timestamp (ms : List MCPIntegration) (id : String)
    (data : PartialMCPIntegration) (now t : String)
    (hmem : id ∈ ms.map MCPIntegration.id) (_ht : data.updatedAt = some t) :
    (ApiClient.updateMCP ms id data now).2.map MCPIntegration.updatedAt
        = Except.ok now
    ∧ (t ≠ now →
        (ApiClient.updateMCP ms id data now).2.map MCPIntegration.updatedAt
          ≠ Except.ok t) := by
  have hsome := updateFirst_isSome id data now ms hmem
  obtain ⟨r, hr⟩ := Option.isSome_iff_exists.mp hsome
  have hup := updateFirst_updatedAt id data now ms r hr
  unfold ApiClient.updateMCP
  rw [hr]
  constructor
  · show Except.ok r.2.updatedAt = Except.ok now
    rw [hup]
  · intro hne hc
    have : r.2.updatedAt = t := Except.ok.inj hc
    exact hne (by rw [← this, hup])

/-- C10 witness: the partial carries updatedAt "caller-time"; the stored
value is the client's "server-time". -/
theorem c10_update_timestamp_witness :
    ("1" ∈ sampleMCPs.map MCPIntegration.id)
    ∧ (({ updatedAt := some "caller-time" } : PartialMCPIntegration).updatedAt
        = some "caller-time")
    ∧ ((ApiClient.updateMCP sampleMCPs "1" { updatedAt := some "caller-time" }
          "server-time").2.map MCPIntegration.updatedAt = Except.ok "server-time")
    ∧ (("caller-time" : String) ≠ "server-time" →
        (ApiClient.updateMCP sampleMCPs "1" { updatedAt := some "caller-time" }
            "server-time").2.map MCPIntegration.updatedAt
          ≠ Except.ok "caller-time") :=
  ⟨by decide, rfl,
    (c10_update_timestamp sampleMCPs "1" { updatedAt := some "caller-time" }
      "server-time" "caller-time" (by decide) rfl).1,
    (c10_update_timestamp sampleMCPs "1" { updatedAt := some "caller-time" }
      "server-time" "caller-time" (by decide) rfl).2⟩

/-! ## C1: sequences of child-collection operations -/

theorem map_key_applyCol {α π : Type} (key : α → String) (mrg : α → π → α)
    (uKeep : π → Bool) (hkeep : ∀ x u, uKeep u = true → key (mrg x u) = key x)
    (op : ColOp α π) (hop : opKeepsId uKeep op = true) (l : List α) :
    (applyCol key mrg l op).map key = colOpIds key (l.map key) op := by
  cases op with
  | add a => simp [applyCol, colOpIds]
  | upd i u =>
    have hu : uKeep u = true := hop
    simp only [applyCol, colOpIds]
    induction l with
    | nil => rfl
    | cons x xs ih =>
      simp only [List.map_cons]
      rw [List.cons.injEq]
      refine ⟨?_, ih⟩
      by_cases hx : (key x == i) = true
      · rw [if_pos hx]
        exact hkeep x u hu
      · rw [if_neg hx]
  | del i =>
    simp only [applyCol, colOpIds]
    induction l with
    | nil => rfl
    | cons x xs ih =>
      simp only [List.filter_cons, List.map_cons]
      by_cases hx : (key x != i) = true
      · rw [if_pos hx, if_pos hx, List.map_cons, ih]
      · rw [if_neg hx, if_neg hx, ih]

theorem applyCols_props {α π : Type} (key : α → String) (mrg : α → π → α)
    (uKeep : π → Bool) (hkeep : ∀ x u, uKeep u = true → key (mrg x u) = key x) :
    ∀ (ops : List (ColOp α π)) (l : List α),
      (l.map key).Nodup → legalOps key uKeep (l.map key) ops = true →
      (applyCols key mrg l ops).map key = expIds key (l.map key) ops
      ∧ ((applyCols key mrg l ops).map key).Nodup := by
  intro ops
  induction ops with
  | nil =>
    intro l hnd _
    exact ⟨rfl, hnd⟩
  | cons op ops ih =>
    intro l hnd hleg
    simp only [legalOps] at hleg
    rw [Bool.and_eq_true] at hleg
    obtain ⟨h1, h2⟩ := hleg
    have hop : opKeepsId uKeep op = true := by
      cases op with
      | add a => rfl
      | upd i u => exact h1
      | del i => rfl
    have hmap := map_key_applyCol key mrg uKeep hkeep op hop l
    have hnd2 : ((applyCol key mrg l op).map key).Nodup := by
      rw [hmap]
      cases op with
      | add a =>
        have hb : (!((l.map key).contains (key a))) = true := h1
        have hna : key a ∉ l.map key := by
          intro hmem
          rw [contains_iff_mem.mpr hmem] at hb
          exact Bool.noConfusion hb
        exact nodup_append_singleton hna hnd
      | upd i u => exact hnd
      | del i => exact hnd.filter _
    have hleg2 : legalOps key uKeep ((applyCol key mrg l op).map key) ops = true := by
      rw [hmap]
      exact h2
    have hrec := ih (applyCol key mrg l op) hnd2 hleg2
    refine ⟨?_, ?_⟩
    · have he : applyCols key mrg l (op :: ops)
          = applyCols key mrg (applyCol key mrg l op) ops := rfl
      rw [he, hrec.1, hmap]
      rfl
    · have he : applyCols key mrg l (op :: ops)
          = applyCols key mrg (applyCol key mrg l op) ops := rfl
      rw [he]
      exact hrec.2

theorem filter_applyCol_untouched {α π : Type} (key : α → String)
    (mrg : α → π → α) (uKeep : π → Bool)
    (hkeep : ∀ x u, uKeep u = true → key (mrg x u) = key x)
    (q : String → Bool) (op : ColOp α π) (hop : opKeepsId uKeep op = true)
    (hq : q (opTarget key op) = false) (l : List α) :
    (applyCol key mrg l op).filter (fun x => q (key x))
      = l.filter (fun x => q (key x)) := by
  cases op with
  | add a =>
    have ha : q (key a) = false := hq
    simp [applyCol, List.filter_append, List.filter_cons, ha]
  | upd i u =>
    have hu : uKeep u = true := hop
    have hi : q i = false := hq
    simp only [applyCol]
    induction l with
    | nil => rfl
    | cons x xs ih =>
      simp only [List.map_cons, List.filter_cons]
      by_cases hx : (key x == i) = true
      · have hxi : key x = i := beq_iff_eq.mp hx
        rw [if_pos hx]
        have hh1 : q (key (mrg x u)) = false := by
          rw [hkeep x u hu, hxi]
          exact hi
        have hh2 : q (key x) = false := by
          rw [hxi]
          exact hi
        rw [if_neg (by rw [hh1]; exact Bool.noConfusion),
          if_neg (by rw [hh2]; exact Bool.noConfusion)]
        exact ih
      · rw [if_neg hx]
        by_cases hpx : (q (key x)) = true
        · rw [if_pos hpx, if_pos hpx, ih]
        · rw [if_neg hpx, if_neg hpx]
          exact ih
  | del i =>
    have hi : q i = false := hq
    simp only [applyCol]
    induction l with
    | nil => rfl
    | cons x xs ih =>
      simp only [List.filter_cons]
      by_cases hx : (key x != i) = true
      · rw [if_pos hx, List.filter_cons]
        by_cases hpx : (q (key x)) = true
        · rw [if_pos hpx, if_pos hpx, ih]
        · rw [if_neg hpx, if_neg hpx]
          exact ih
      · rw [if_neg hx]
        have hxi : key x = i := by
          have : ¬((key x == i) = false) := by
            intro hc
            exact hx (by simp [bne, hc])
          cases hcc : (key x == i) with
          | false => exact absurd hcc this
          | true => exact beq_iff_eq.mp hcc
        have hh2 : q (key x) = false := by
          rw [hxi]
          exact hi
        rw [if_neg (by rw [hh2]; exact Bool.noConfusion)]
        exact ih

theorem legalOps_keeps {α π : Type} (key : α → String) (uKeep : π → Bool) :
    ∀ (ops : List (ColOp α π)) (ids : List String),
      legalOps key uKeep ids ops = true →
      ∀ op ∈ ops, opKeepsId uKeep op = true := by
  intro ops
  induction ops with
  | nil =>
    intro ids _ op hop
    simp at hop
  | cons o os ih =>
    intro ids hleg op hop
    simp only [legalOps] at hleg
    rw [Bool.and_eq_true] at hleg
    rcases List.mem_cons.mp hop with heq | hmem
    · subst heq
      cases op with
      | add a => rfl
      | upd i u => exact hleg.1
      | del i => rfl
    · exact ih _ hleg.2 op hmem

theorem opTarget_mem_touchedIds {α π : Type} (key : α → String) :
    ∀ (ops : List (ColOp α π)) (op : ColOp α π), op ∈ ops →
      opTarget key op ∈ touchedIds key ops := by
  intro ops
  induction ops with
  | nil =>
    intro op hop
    simp at hop
  | cons o os ih =>
    intro op hop
    rcases List.mem_cons.mp hop with heq | hmem
    · subst heq
      cases op <;> simp [touchedIds, opTarget]
    · cases o <;> simp [touchedIds] <;> exact Or.inr (ih op hmem)

theorem applyCols_untouched {α π : Type} (key : α → String) (mrg : α → π → α)
    (uKeep : π → Bool) (hkeep : ∀ x u, uKeep u = true → key (mrg x u) = key x)
    (q : String → Bool) :
    ∀ (ops : List (ColOp α π)) (l : List α),
      (∀ op ∈ ops, q (opTarget key op) = false) →
      (∀ op ∈ ops, opKeepsId uKeep op = true) →
      (applyCols key mrg l ops).filter (fun x => q (key x))
        = l.filter (fun x => q (key x)) := by
  intro ops
  induction ops with
  | nil =>
    intro l _ _
    rfl
  | cons op ops ih =>
    intro l hq hK
    have hq2 : ∀ o ∈ ops, q (opTarget key o) = false :=
      fun o ho => hq o (List.mem_cons_of_mem op ho)
    have hK2 : ∀ o ∈ ops, opKeepsId uKeep o = true :=
      fun o ho => hK o (List.mem_cons_of_mem op ho)
    have hstep := filter_applyCol_untouched key mrg uKeep hkeep q op
      (hK op (List.mem_cons_self op ops)) (hq op (List.mem_cons_self op ops)) l
    have hrec := ih (applyCol key mrg l op) hq2 hK2
    calc (applyCols key mrg l (op :: ops)).filter (fun x => q (key x))
        = (applyCols key mrg (applyCol key mrg l op) ops).filter
            (fun x => q (key x)) := rfl
      _ = (applyCol key mrg l op).filter (fun x => q (key x)) := hrec
      _ = l.filter (fun x => q (key x)) := hstep

theorem mergeAPIConfig_id (x : APIConfig) (u : PartialAPIConfig)
    (h : u.id.isNone = true) : (mergeAPIConfig x u).id = x.id := by
  have h2 : u.id = Option.none := Option.isNone_iff_eq_none.mp h
  simp [mergeAPIConfig, h2]

theorem mergeMCPTool_id (x : MCPTool) (u : PartialMCPTool)
    (h : u.id.isNone = true) : (mergeMCPTool x u).id = x.id := by
  have h2 : u.id = Option.none := Option.isNone_iff_eq_none.mp h
  simp [mergeMCPTool, h2]

theorem mergeMCPPrompt_id (x : MCPPrompt) (u : PartialMCPPrompt)
    (h : u.id.isNone = true) : (mergeMCPPrompt x u).id = x.id := by
  have h2 : u.id = Option.none := Option.isNone_iff_eq_none.mp h
  simp [mergeMCPPrompt, h2]

theorem applyAPIOp_currentMCP (st : MCPStore) (m : MCPIntegration)
    (h : st.currentMCP = some m) (op : ColOp APIConfig PartialAPIConfig) :
    (applyAPIOp st op).currentMCP
      = some { m with apis := (applyCol APIConfig.id mergeAPIConfig m.apis op) } := by
  cases op with
  | add a => simp [applyAPIOp, Store.addAPI, applyCol, h]
  | upd i u => simp [applyAPIOp, Store.updateAPI, applyCol, h]
  | del i => simp [applyAPIOp, Store.deleteAPI, applyCol, h]

theorem applyToolOp_currentMCP (st : MCPStore) (m : MCPIntegration)
    (h : st.currentMCP = some m) (op : ColOp MCPTool PartialMCPTool) :
    (applyToolOp st op).currentMCP
      = some { m with tools := (applyCol MCPTool.id mergeMCPTool m.tools op) } := by
  cases op with
  | add a => simp [applyToolOp, Store.addTool, applyCol, h]
  | upd i u => simp [applyToolOp, Store.updateTool, applyCol, h]
  | del i => simp [applyToolOp, Store.deleteTool, applyCol, h]

theorem applyPromptOp_currentMCP (st : MCPStore) (m : MCPIntegration)
    (h : st.currentMCP = some m) (op : ColOp MCPPrompt PartialMCPPrompt) :
    (applyPromptOp st op).currentMCP
      = some { m with prompts := (applyCol MCPPrompt.id mergeMCPPrompt m.prompts op) } := by
  cases op with
  | add a => simp [applyPromptOp, Store.addPrompt, applyCol, h]
  | upd i u => simp [applyPromptOp, Store.updatePrompt, applyCol, h]
  | del i => simp [applyPromptOp, Store.deletePrompt, applyCol, h]

theorem foldl_applyAPIOp (ops : List (ColOp APIConfig PartialAPIConfig)) :
    ∀ (st : MCPStore) (m : MCPIntegration), st.currentMCP = some m →
      (ops.foldl applyAPIOp st).currentMCP
        = some { m with apis := (applyCols APIConfig.id mergeAPIConfig m.apis ops) } := by
  induction ops with
  | nil =>
    intro st m h
    exact h
  | cons op ops ih =>
    intro st m h
    exact ih (applyAPIOp st op) _ (applyAPIOp_currentMCP st m h op)

theorem foldl_applyToolOp (ops : List (ColOp MCPTool PartialMCPTool)) :
    ∀ (st : MCPStore) (m : MCPIntegration), st.currentMCP = some m →
      (ops.foldl applyToolOp st).currentMCP
        = some { m with tools := (applyCols MCPTool.id mergeMCPTool m.tools ops) } := by
  induction ops with
  | nil =>
    intro st m h
    exact h
  | cons op ops ih =>
    intro st m h
    exact ih (applyToolOp st op) _ (applyToolOp_currentMCP st m h op)

theorem foldl_applyPromptOp (ops : List (ColOp MCPPrompt PartialMCPPrompt)) :
    ∀ (st : MCPStore) (m : MCPIntegration), st.currentMCP = some m →
      (ops.foldl applyPromptOp st).currentMCP
        = some { m with prompts := (applyCols MCPPrompt.id mergeMCPPrompt m.prompts ops) } := by
  induction ops with
  | nil =>
    intro st m h
    exact h
  | cons op ops ih =>
    intro st m h
    exact ih (applyPromptOp st op) _ (applyPromptOp_currentMCP st m h op)

/-- C1 counterexample: the store does not guard against duplicate
identifiers — adding two APIs carrying the same identifier to a held
integration leaves the APIs collection with duplicate identifiers, so the
claim's "no duplicate identifiers" fails over unrestricted operation
sequences. -/
theorem c1_counterexample :
    ¬ (((apisOf
        ([ColOp.add (sampleAPI "x"), ColOp.add (sampleAPI "x")].foldl applyAPIOp
          sampleStore)).map APIConfig.id).Nodup) := by
  decide

/-- C1 (amended): for every sequence of add/update/delete operations on one
child collection (APIs, Tools or Prompts) of a held integration, provided
the collection's identifiers start duplicate-free, every add uses an
identifier fresh at that point, and no update partial rewrites the
identifier field, the resulting collection carries exactly the expected
identifiers with no duplicates, and the elements whose identifiers are
never targeted are kept unchanged in their original relative order. -/
theorem c1_child_ops_amended :
    (∀ (st : MCPStore) (m : MCPIntegration)
        (ops : List (ColOp APIConfig PartialAPIConfig)),
      st.currentMCP = some m →
      (m.apis.map APIConfig.id).Nodup →
      legalOps APIConfig.id (fun u => u.id.isNone) (m.apis.map APIConfig.id) ops
          = true →
      (apisOf (ops.foldl applyAPIOp st)).map APIConfig.id
          = expIds APIConfig.id (m.apis.map APIConfig.id) ops
      ∧ ((apisOf (ops.foldl applyAPIOp st)).map APIConfig.id).Nodup
      ∧ (apisOf (ops.foldl applyAPIOp st)).filter
            (fun x => !((touchedIds APIConfig.id ops).contains (APIConfig.id x)))
          = m.apis.filter
            (fun x => !((touchedIds APIConfig.id ops).contains (APIConfig.id x))))
    ∧ (∀ (st : MCPStore) (m : MCPIntegration)
        (ops : List (ColOp MCPTool PartialMCPTool)),
      st.currentMCP = some m →
      (m.tools.map MCPTool.id).Nodup →
      legalOps MCPTool.id (fun u => u.id.isNone) (m.tools.map MCPTool.id) ops
          = true →
      (toolsOf (ops.foldl applyToolOp st)).map MCPTool.id
          = expIds MCPTool.id (m.tools.map MCPTool.id) ops
      ∧ ((toolsOf (ops.foldl applyToolOp st)).map MCPTool.id).Nodup
      ∧ (toolsOf (ops.foldl applyToolOp st)).filter
            (fun x => !((touchedIds MCPTool.id ops).contains (MCPTool.id x)))
          = m.tools.filter
            (fun x => !((touchedIds MCPTool.id ops).contains (MCPTool.id x))))
    ∧ (∀ (st : MCPStore) (m : MCPIntegration)
        (ops : List (ColOp MCPPrompt PartialMCPPrompt)),
      st.currentMCP = some m →
      (m.prompts.map MCPPrompt.id).Nodup →
      legalOps MCPPrompt.id (fun u => u.id.isNone)
          (m.prompts.map MCPPrompt.id) ops = true →
      (promptsOf (ops.foldl applyPromptOp st)).map MCPPrompt.id
          = expIds MCPPrompt.id (m.prompts.map MCPPrompt.id) ops
      ∧ ((promptsOf (ops.foldl applyPromptOp st)).map MCPPrompt.id).Nodup
      ∧ (promptsOf (ops.foldl applyPromptOp st)).filter
            (fun x => !((touchedIds MCPPrompt.id ops).contains (MCPPrompt.id x)))
          = m.prompts.filter
            (fun x => !((touchedIds MCPPrompt.id ops).contains
              (MCPPrompt.id x)))) := by
  refine ⟨?_, ?_, ?_⟩
  · intro st m ops hst hnd hleg
    have hfold := foldl_applyAPIOp ops st m hst
    have hap : apisOf (ops.foldl applyAPIOp st)
        = applyCols APIConfig.id mergeAPIConfig m.apis ops := by
      unfold apisOf
      rw [hfold]
    have hprops := applyCols_props APIConfig.id mergeAPIConfig
      (fun u => u.id.isNone) (fun x u hu => mergeAPIConfig_id x u hu)
      ops m.apis hnd hleg
    have hkeeps := legalOps_keeps APIConfig.id (fun u => u.id.isNone) ops
      (m.apis.map APIConfig.id) hleg
    have hunt := applyCols_untouched APIConfig.id mergeAPIConfig
      (fun u => u.id.isNone) (fun x u hu => mergeAPIConfig_id x u hu)
      (fun s => !((touchedIds APIConfig.id ops).contains s)) ops m.apis
      (fun o ho => by
        show (!((touchedIds APIConfig.id ops).contains (opTarget APIConfig.id o))) = false
        rw [contains_iff_mem.mpr (opTarget_mem_touchedIds APIConfig.id ops o ho)]
        rfl)
      hkeeps
    exact ⟨by rw [hap]; exact hprops.1, by rw [hap]; exact hprops.2,
      by rw [hap]; exact hunt⟩
  · intro st m ops hst hnd hleg
    have hfold := foldl_applyToolOp ops st m hst
    have hap : toolsOf (ops.foldl applyToolOp st)
        = applyCols MCPTool.id mergeMCPTool m.tools ops := by
      unfold toolsOf
      rw [hfold]
    have hprops := applyCols_props MCPTool.id mergeMCPTool
      (fun u => u.id.isNone) (fun x u hu => mergeMCPTool_id x u hu)
      ops m.tools hnd hleg
    have hkeeps := legalOps_keeps MCPTool.id (fun u => u.id.isNone) ops
      (m.tools.map MCPTool.id) hleg
    have hunt := applyCols_untouched MCPTool.id mergeMCPTool
      (fun u => u.id.isNone) (fun x u hu => mergeMCPTool_id x u hu)
      (fun s => !((touchedIds MCPTool.id ops).contains s)) ops m.tools
      (fun o ho => by
        show (!((touchedIds MCPTool.id ops).contains (opTarget MCPTool.id o))) = false
        rw [contains_iff_mem.mpr (opTarget_mem_touchedIds MCPTool.id ops o ho)]
        rfl)
      hkeeps
    exact ⟨by rw [hap]; exact hprops.1, by rw [hap]; exact hprops.2,
      by rw [hap]; exact hunt⟩
  · intro st m ops hst hnd hleg
    have hfold := foldl_applyPromptOp ops st m hst
    have hap : promptsOf (ops.foldl applyPromptOp st)
        = applyCols MCPPrompt.id mergeMCPPrompt m.prompts ops := by
      unfold promptsOf
      rw [hfold]
    have hprops := applyCols_props MCPPrompt.id mergeMCPPrompt
      (fun u => u.id.isNone) (fun x u hu => mergeMCPPrompt_id x u hu)
      ops m.prompts hnd hleg
    have hkeeps := legalOps_keeps MCPPrompt.id (fun u => u.id.isNone) ops
      (m.prompts.map MCPPrompt.id) hleg
    have hunt := applyCols_untouched MCPPrompt.id mergeMCPPrompt
      (fun u => u.id.isNone) (fun x u hu => mergeMCPPrompt_id x u hu)
      (fun s => !((touchedIds MCPPrompt.id ops).contains s)) ops m.prompts
      (fun o ho => by
        show (!((touchedIds MCPPrompt.id ops).contains (opTarget MCPPrompt.id o))) = false
        rw [contains_iff_mem.mpr (opTarget_mem_touchedIds MCPPrompt.id ops o ho)]
        rfl)
      hkeeps
    exact ⟨by rw [hap]; exact hprops.1, by rw [hap]; exact hprops.2,
      by rw [hap]; exact hunt⟩

/-- C1 witness for the amended theorem, on the APIs collection: two fresh
adds, one identifier-preserving update, one delete. -/
theorem c1_child_ops_amended_witness :
    (sampleStore.currentMCP = some (MockStorage.createNewMCP "0" "t0")
      ∧ (((MockStorage.createNewMCP "0" "t0").apis.map APIConfig.id).Nodup)
      ∧ legalOps APIConfig.id (fun u => u.id.isNone)
          ((MockStorage.createNewMCP "0" "t0").apis.map APIConfig.id)
          sampleAPIOps = true)
    ∧ ((apisOf (sampleAPIOps.foldl applyAPIOp sampleStore)).map APIConfig.id
          = expIds APIConfig.id
              ((MockStorage.createNewMCP "0" "t0").apis.map APIConfig.id)
              sampleAPIOps
        ∧ ((apisOf (sampleAPIOps.foldl applyAPIOp sampleStore)).map
            APIConfig.id).Nodup
        ∧ (apisOf (sampleAPIOps.foldl applyAPIOp sampleStore)).filter
              (fun x => !((touchedIds APIConfig.id sampleAPIOps).contains
                (APIConfig.id x)))
            = (MockStorage.createNewMCP "0" "t0").apis.filter
              (fun x => !((touchedIds APIConfig.id sampleAPIOps).contains
                (APIConfig.id x)))) :=
  ⟨⟨rfl, by decide, by decide⟩,
    c1_child_ops_amended.1 sampleStore (MockStorage.createNewMCP "0" "t0")
      sampleAPIOps rfl (by decide) (by decide)⟩
